import Mathlib

/-!
Shallow embedding of the MFlix analytics dashboard query layer (src/app.py).

The dashboard reads three collections (movies, users, comments) and renders
five independent panels: KPI summary, rating trend by year, genre performance,
most-discussed movies, and a title search.  Each aggregation pipeline from the
source is embedded as a pure function over lists of documents.  Ratings are
modelled as rationals; a rating or year that is missing or non-numeric in the
store is modelled as `none` (MongoDB type bracketing makes `$gte`/`$lte` with a
numeric operand, and the explicit `$type: "number"` checks, reject such values).
A genre array may contain null entries, modelled as `none` elements.
-/

/-- A movie document as consumed by the queries in src/app.py: `_id`, `title`,
`year`, `imdb.rating`, `genres`, `plot`.  `year`/`rating` are `none` when the
field is missing or non-numeric; an absent `genres` field is the empty list
(it behaves like one under both `$in` and `$unwind`). -/
structure Movie where
  mid : Nat
  title : List Char
  year : Option Int
  rating : Option ℚ
  genres : List (Option String)
  plot : List Char
deriving DecidableEq, Repr

/-- A comment document: `_id` and its `movie_id` reference. -/
structure Comment where
  cid : Nat
  movie_id : Nat
deriving DecidableEq, Repr

/-- The sidebar filter state: year range slider, selected genres, minimum
rating slider (app.py lines 109-142). -/
structure FilterState where
  year_min : Int
  year_max : Int
  selected_genres : List String
  min_rating : ℚ
deriving DecidableEq, Repr

/-- The shared `$match` document built at app.py lines 144-151:
`year` between the slider bounds, `imdb.rating` numeric and at least the
rating slider, and, only when some genres are selected, `genres $in` the
selected list. -/
def match_stage (f : FilterState) (m : Movie) : Bool :=
  (match m.year with
   | some y => decide (f.year_min ≤ y) && decide (y ≤ f.year_max)
   | none => false)
  &&
  (match m.rating with
   | some r => decide (f.min_rating ≤ r)
   | none => false)
  &&
  (f.selected_genres.isEmpty ||
    m.genres.any (fun g =>
      match g with
      | some s => f.selected_genres.contains s
      | none => false))

/-- `$avg` over a list of numeric values (the groups the code averages are
always non-empty, so the 0-denominator case never arises there). -/
def avgOf (rs : List ℚ) : ℚ := rs.sum / rs.length

/-- The numeric rating of a movie already known to have one. -/
def ratingOf (m : Movie) : ℚ := m.rating.getD 0

/-- One row of the trend aggregation: `_id` (the year), `avgRating`,
`movieCount`. -/
structure TrendRow where
  year : Int
  avgRating : ℚ
  movieCount : Nat
deriving DecidableEq, Repr

/-- The rating-trend pipeline (app.py lines 159-169): `$match` the shared
filter, `$group` by `$year` computing `$avg` of `imdb.rating` and `$sum: 1`,
then `$sort {_id: 1}`. -/
def trend_pipeline (movies : List Movie) (f : FilterState) : List TrendRow :=
  let matched := movies.filter (fun m => match_stage f m)
  let years := List.insertionSort (· ≤ ·) (matched.filterMap Movie.year).dedup
  years.map (fun y =>
    let grp := matched.filter (fun m => m.year = some y)
    { year := y
      avgRating := avgOf (grp.filterMap Movie.rating)
      movieCount := grp.length })

/-- One row of the genre aggregation after the null bucket is dropped. -/
structure GenreRow where
  genre : String
  avgRating : ℚ
  movieCount : Nat
deriving DecidableEq, Repr

/-- The `$unwind "$genres"` fan-out applied to the filtered movies: one
(genre element, rating) pair per element of each matched movie's genre
array.  Movies with an empty (or absent) genre array produce nothing, as
`$unwind` drops them. -/
def genre_fanout (movies : List Movie) (f : FilterState) :
    List (Option String × ℚ) :=
  (movies.filter (fun m => match_stage f m)).flatMap
    (fun m => m.genres.map (fun g => (g, ratingOf m)))

/-- The `$group` output row for one non-null genre key. -/
def genre_row (fan : List (Option String × ℚ)) (g : String) : GenreRow :=
  let grp := fan.filter (fun p => p.1 = some g)
  { genre := g
    avgRating := avgOf (grp.map Prod.snd)
    movieCount := grp.length }

/-- The `$group`-and-null-drop step for one key: the null key (the
`$match {_id: {$ne: null}}` stage) produces no row, a genre key produces its
group row. -/
def genre_key_row (fan : List (Option String × ℚ)) :
    Option String → Option GenreRow
  | none => none
  | some g => some (genre_row fan g)

/-- The genre-performance pipeline (app.py lines 202-212): `$match` the shared
filter, `$unwind "$genres"`, `$group` by genre with `$avg`/`$sum: 1`,
`$match {_id: {$ne: null}}`, `$sort {movieCount: -1}`. -/
def genre_pipeline (movies : List Movie) (f : FilterState) : List GenreRow :=
  let fan := genre_fanout movies f
  let rows := (fan.map Prod.fst).dedup.filterMap (genre_key_row fan)
  List.insertionSort (fun a b => b.movieCount ≤ a.movieCount) rows

/-- One row of the most-discussed aggregation, after
`$project {title, year, imdb.rating, comment_count, genres}` (which keeps
`_id` implicitly). -/
structure DiscRow where
  mid : Nat
  title : List Char
  year : Option Int
  rating : Option ℚ
  genres : List (Option String)
  comment_count : Nat
deriving DecidableEq, Repr

/-- The `$lookup`-attached comment count of a movie: the number of comments
whose `movie_id` equals the movie's `_id`. -/
def comment_count_of (comments : List Comment) (m : Movie) : Nat :=
  (comments.filter (fun c => c.movie_id = m.mid)).length

/-- The `$project` stage of the most-discussed pipeline. -/
def disc_project (p : Movie × Nat) : DiscRow :=
  { mid := p.1.mid
    title := p.1.title
    year := p.1.year
    rating := p.1.rating
    genres := p.1.genres
    comment_count := p.2 }

/-- The most-discussed pipeline (app.py lines 268-286): `$lookup` comments by
`movie_id`, `$addFields comment_count = $size`, `$match` the shared filter
(after the join, so it constrains movie fields only), `$sort` descending by
`comment_count`, `$limit 15`, `$project`. -/
def discussion_pipeline (movies : List Movie) (comments : List Comment)
    (f : FilterState) : List DiscRow :=
  let joined := movies.map (fun m => (m, comment_count_of comments m))
  let matched := joined.filter (fun p => match_stage f p.1)
  let sorted := List.insertionSort (fun a b => b.2 ≤ a.2) matched
  (sorted.take 15).map disc_project

/-- The result list of the KPI rating aggregation (app.py lines 68-71):
`$match {imdb.rating: {$type: "number"}}` then a single `$group` with
`_id: null` averaging `imdb.rating`; the group stage emits no document when
its input is empty. -/
def rating_data (movies : List Movie) : List ℚ :=
  let matched := movies.filter (fun m => m.rating.isSome)
  match matched with
  | [] => []
  | _ :: _ => [avgOf (matched.filterMap Movie.rating)]

/-- `avg_rating = rating_data[0]["avgRating"] if rating_data else 0`
(app.py line 72). -/
def avg_rating (movies : List Movie) : ℚ :=
  match rating_data movies with
  | [] => 0
  | r :: _ => r

/-- The four KPI values computed in the try block at app.py lines 62-72. -/
structure KpiValues where
  movies_count : Nat
  users_count : Nat
  comments_count : Nat
  avg : ℚ
deriving DecidableEq, Repr

/-- The KPI block (app.py lines 62-76): on success the four metrics are read
from the store (movies list, users cardinality, comments list); the
`except` arm zeroes all four variables together. -/
def kpi_block (res : Except (List Char) (List Movie × Nat × List Comment)) :
    KpiValues :=
  match res with
  | .error _ => ⟨0, 0, 0, 0⟩
  | .ok (movies, users, comments) =>
      ⟨movies.length, users, comments.length, avg_rating movies⟩

/-- A token of the regex fragment that the raw search text denotes under
MongoDB's `$regex` with option `"i"`, for texts built from `.` and
regex-literal characters: `.` matches any character, a literal matches its
character case-insensitively. -/
inductive RTok where
  | dot
  | lit (c : Char)
deriving DecidableEq, Repr

/-- Compile the raw search text into that regex fragment (the source passes
the text verbatim as the `$regex` operand, app.py line 328). -/
def compile_regex (q : List Char) : List RTok :=
  q.map (fun c => if c = '.' then RTok.dot else RTok.lit c.toLower)

/-- Case-insensitive single-token match. -/
def tok_match : RTok → Char → Bool
  | .dot, _ => true
  | .lit c, d => c = d.toLower

/-- Whether the pattern matches a prefix of the text. -/
def match_here : List RTok → List Char → Bool
  | [], _ => true
  | _ :: _, [] => false
  | t :: ts, c :: cs => tok_match t c && match_here ts cs

/-- Unanchored regex match, as `$regex` performs: the pattern may match at
any position of the text. -/
def regex_find (p : List RTok) : List Char → Bool
  | [] => match_here p []
  | c :: cs => match_here p (c :: cs) || regex_find p cs

/-- Characters that are metacharacters in the regex dialect `$regex` uses;
a search text avoiding all of them is matched purely literally.
(`Char.ofNat 123`/`125` are the curly braces.) -/
def regex_meta : List Char :=
  ['.', '*', '+', '?', '[', ']', '(', ')', '|', '^', '$', '\\',
   Char.ofNat 123, Char.ofNat 125]

/-- Character-by-character lowering, the reference meaning of
case-insensitive comparison. -/
def lower (s : List Char) : List Char := s.map Char.toLower

/-- Whether `q` occurs at the front of the text (exact characters). -/
def starts_at : List Char → List Char → Bool
  | [], _ => true
  | _ :: _, [] => false
  | a :: as, b :: bs => a = b && starts_at as bs

/-- Whether `q` occurs as a contiguous substring of the text. -/
def contains_sub (q : List Char) : List Char → Bool
  | [] => starts_at q []
  | c :: cs => starts_at q (c :: cs) || contains_sub q cs

/-- A search result row after the projection
`{title: 1, year: 1, genres: 1, imdb.rating: 1, plot: 1}` (app.py line 331),
which keeps `_id` implicitly. -/
structure SearchRow where
  mid : Nat
  title : List Char
  year : Option Int
  genres : List (Option String)
  rating : Option ℚ
  plot : List Char
deriving DecidableEq, Repr

/-- The search projection. -/
def search_project (m : Movie) : SearchRow :=
  { mid := m.mid
    title := m.title
    year := m.year
    genres := m.genres
    rating := m.rating
    plot := m.plot }

/-- The `db.movies.find(...)` search query (app.py lines 326-332): title
matched by the raw text as a case-insensitive regex, conjoined with the
shared filter, limited to `result_limit` rows, projected. -/
def movies_find (movies : List Movie) (f : FilterState) (q : List Char)
    (result_limit : Nat) : List SearchRow :=
  ((movies.filter (fun m =>
      regex_find (compile_regex q) m.title && match_stage f m)).take
    result_limit).map search_project

/-- Reference query written from the spec's words ("case-insensitive
substring search on title AND the filter predicate, limited to
`result_limit` rows, projected"), to be compared with `movies_find`. -/
def search_spec (movies : List Movie) (f : FilterState) (q : List Char)
    (result_limit : Nat) : List SearchRow :=
  ((movies.filter (fun m =>
      contains_sub (lower q) (lower m.title) && match_stage f m)).take
    result_limit).map search_project

/-- The three terminal states of the search panel: no search submitted
(empty text, app.py line 324 guard), a non-empty result table with a success
message, or the "No movies found" warning. -/
inductive SearchOutcome where
  | noSearch
  | results (rows : List SearchRow)
  | noneFound
deriving DecidableEq, Repr

/-- The search panel (app.py lines 324-347): an empty text short-circuits
before any query; otherwise an empty result renders the warning and a
non-empty one the table. -/
def search_panel (movies : List Movie) (f : FilterState) (q : List Char)
    (result_limit : Nat) : SearchOutcome :=
  if q.isEmpty then SearchOutcome.noSearch
  else
    match movies_find movies f q result_limit with
    | [] => SearchOutcome.noneFound
    | r :: rs => SearchOutcome.results (r :: rs)

/-- What a panel renders: `st.error` with a message, an informational
empty-state notice (`st.info`/`st.warning`), or a populated chart/table. -/
inductive Render where
  | errorMsg (msg : List Char)
  | emptyNotice
  | chart
deriving DecidableEq, Repr

/-- The trend panel's try/except and empty branch (app.py lines 158-192):
a raised error is caught locally and shown via `st.error`; an empty result
shows `st.info`; otherwise the chart is drawn. -/
def trend_panel (res : Except (List Char) (List TrendRow)) : Render :=
  match res with
  | .error e => Render.errorMsg e
  | .ok [] => Render.emptyNotice
  | .ok (_ :: _) => Render.chart

/-- The genre panel's try/except and empty branch (app.py lines 201-257). -/
def genre_panel (res : Except (List Char) (List GenreRow)) : Render :=
  match res with
  | .error e => Render.errorMsg e
  | .ok [] => Render.emptyNotice
  | .ok (_ :: _) => Render.chart

/-- The most-discussed panel's try/except and empty branch
(app.py lines 267-312). -/
def disc_panel (res : Except (List Char) (List DiscRow)) : Render :=
  match res with
  | .error e => Render.errorMsg e
  | .ok [] => Render.emptyNotice
  | .ok (_ :: _) => Render.chart

/-- The three aggregation panels render independently, each from its own
query result. -/
def dashboard_panels (t : Except (List Char) (List TrendRow))
    (g : Except (List Char) (List GenreRow))
    (d : Except (List Char) (List DiscRow)) : Render × Render × Render :=
  (trend_panel t, genre_panel g, disc_panel d)

/-- The most-discussed section (app.py line 264): it is rendered only when
the `comments_count` variable set by the KPI block is positive; no fresh
comment query is made for the gate. -/
def most_discussed_section
    (kres : Except (List Char) (List Movie × Nat × List Comment))
    (movies : List Movie) (comments : List Comment) (f : FilterState) :
    Option Render :=
  if 0 < (kpi_block kres).comments_count then
    some (disc_panel (Except.ok (discussion_pipeline movies comments f)))
  else none

/-! ### Concrete example data used by counterexamples and witnesses -/

/-- A movie with two genres, only one of them selected in `onlyA`. -/
def movieAB : Movie := ⟨0, ['a', 'b'], some 2000, some 5, [some "A", some "B"], []⟩

/-- Filter selecting only genre "A". -/
def onlyA : FilterState := ⟨1990, 2020, ["A"], 0⟩

/-- Unrestrictive filter: wide year range, no genre selection, floor 0. -/
def openFilter : FilterState := ⟨1990, 2020, [], 0⟩

/-- A movie whose stored rating exceeds 10. -/
def movieEleven : Movie := ⟨1, ['c'], some 2001, some 11, [some "A"], []⟩

/-- A movie with an empty genre array. -/
def movieNoGenre : Movie := ⟨2, ['d'], some 2002, some 5, [], []⟩

/-- A movie nobody commented on. -/
def movieZero : Movie := ⟨7, ['z'], some 2005, some 6, [some "A"], []⟩

/-- Movies with ratings 4 and 6, for averaging. -/
def movieFour : Movie := ⟨3, ['p'], some 1999, some 4, [some "A"], []⟩

/-- See `movieFour`. -/
def movieSix : Movie := ⟨4, ['q'], some 1998, some 6, [some "B"], []⟩

/-! ### Helper lemmas -/

theorem match_stage_year {f : FilterState} {m : Movie}
    (h : match_stage f m = true) :
    ∃ y, m.year = some y ∧ f.year_min ≤ y ∧ y ≤ f.year_max := by
  unfold match_stage at h
  cases hy : m.year with
  | none => rw [hy] at h; simp at h
  | some y =>
    rw [hy] at h
    simp only [Bool.and_eq_true, decide_eq_true_eq] at h
    exact ⟨y, rfl, h.1.1.1, h.1.1.2⟩

theorem match_stage_rating {f : FilterState} {m : Movie}
    (h : match_stage f m = true) :
    ∃ r, m.rating = some r ∧ f.min_rating ≤ r := by
  unfold match_stage at h
  cases hr : m.rating with
  | none => rw [hr] at h; simp at h
  | some r =>
    rw [hr] at h
    simp only [Bool.and_eq_true, decide_eq_true_eq] at h
    exact ⟨r, rfl, h.1.2⟩

theorem match_stage_genre {f : FilterState} {m : Movie}
    (h : match_stage f m = true) (hne : f.selected_genres ≠ []) :
    ∃ g, some g ∈ m.genres ∧ g ∈ f.selected_genres := by
  unfold match_stage at h
  simp only [Bool.and_eq_true, Bool.or_eq_true] at h
  rcases h.2 with hempty | hany
  · exact absurd (List.isEmpty_iff.mp hempty) hne
  · obtain ⟨g, hgmem, hmatch⟩ := List.any_eq_true.mp hany
    cases g with
    | none => simp at hmatch
    | some s =>
      refine ⟨s, hgmem, ?_⟩
      simpa using hmatch

theorem length_mul_le_sum {c : ℚ} :
    ∀ {rs : List ℚ}, (∀ r ∈ rs, c ≤ r) → (rs.length : ℚ) * c ≤ rs.sum := by
  intro rs
  induction rs with
  | nil => intro _; simp
  | cons a as ih =>
    intro h
    have ha := h a (List.mem_cons_self a as)
    have has := ih (fun r hr => h r (List.mem_cons_of_mem a hr))
    simp only [List.length_cons, List.sum_cons, Nat.cast_add, Nat.cast_one]
    calc ((as.length : ℚ) + 1) * c = c + (as.length : ℚ) * c := by ring
    _ ≤ a + as.sum := add_le_add ha has

theorem sum_le_length_mul {c : ℚ} :
    ∀ {rs : List ℚ}, (∀ r ∈ rs, r ≤ c) → rs.sum ≤ (rs.length : ℚ) * c := by
  intro rs
  induction rs with
  | nil => intro _; simp
  | cons a as ih =>
    intro h
    have ha := h a (List.mem_cons_self a as)
    have has := ih (fun r hr => h r (List.mem_cons_of_mem a hr))
    simp only [List.length_cons, List.sum_cons, Nat.cast_add, Nat.cast_one]
    calc a + as.sum ≤ c + (as.length : ℚ) * c := add_le_add ha has
    _ = ((as.length : ℚ) + 1) * c := by ring

theorem le_avgOf {c : ℚ} {rs : List ℚ} (hne : rs ≠ [])
    (h : ∀ r ∈ rs, c ≤ r) : c ≤ avgOf rs := by
  have hlen : 0 < (rs.length : ℚ) := by
    exact_mod_cast List.length_pos.mpr hne
  rw [avgOf, le_div_iff₀ hlen]
  calc c * (rs.length : ℚ) = (rs.length : ℚ) * c := mul_comm _ _
  _ ≤ rs.sum := length_mul_le_sum h

theorem avgOf_le {c : ℚ} {rs : List ℚ} (hne : rs ≠ [])
    (h : ∀ r ∈ rs, r ≤ c) : avgOf rs ≤ c := by
  have hlen : 0 < (rs.length : ℚ) := by
    exact_mod_cast List.length_pos.mpr hne
  rw [avgOf, div_le_iff₀ hlen]
  calc rs.sum ≤ (rs.length : ℚ) * c := sum_le_length_mul h
  _ = c * (rs.length : ℚ) := mul_comm _ _

/-! ### C3: trend output sorted strictly ascending by year -/

/-- C3: for every store and Filter State, the Trend Aggregator's output is
strictly ascending in year (hence contains no duplicate years), and it has
one row exactly for each year carried by some movie that satisfies the
filter. -/
theorem trend_strictly_sorted (movies : List Movie) (f : FilterState) :
    (trend_pipeline movies f).Pairwise (fun a b => a.year < b.year) ∧
    (∀ y : Int, (∃ row ∈ trend_pipeline movies f, row.year = y) ↔
      ∃ m ∈ movies, match_stage f m = true ∧ m.year = some y) := by
  constructor
  · have hsorted : List.Sorted (· ≤ ·)
        (List.insertionSort (· ≤ ·)
          ((movies.filter (fun m => match_stage f m)).filterMap Movie.year).dedup) :=
      List.sorted_insertionSort _ _
    have hnodup : (List.insertionSort (· ≤ ·)
        ((movies.filter (fun m => match_stage f m)).filterMap Movie.year).dedup).Nodup :=
      (List.perm_insertionSort _ _).symm.nodup (List.nodup_dedup _)
    have hlt := hsorted.lt_of_le hnodup
    unfold trend_pipeline
    rw [List.pairwise_map]
    exact hlt.imp (fun {a b} hab => hab)
  · intro y
    unfold trend_pipeline
    simp only [List.mem_map, List.mem_insertionSort, List.mem_dedup,
      List.mem_filterMap, List.mem_filter]
    constructor
    · rintro ⟨row, ⟨y', ⟨m, ⟨hm, hmatch⟩, hy'⟩, hrow⟩, hyear⟩
      refine ⟨m, hm, hmatch, ?_⟩
      rw [hy']
      rw [← hrow] at hyear
      simpa using hyear
    · rintro ⟨m, hm, hmatch, hy⟩
      exact ⟨_, ⟨y, ⟨m, ⟨hm, hmatch⟩, hy⟩, rfl⟩, rfl⟩

/-- Every trend row's year is the year of some movie satisfying the filter. -/
theorem trend_row_year {movies : List Movie} {f : FilterState} {row : TrendRow}
    (h : row ∈ trend_pipeline movies f) :
    ∃ m ∈ movies, match_stage f m = true ∧ m.year = some row.year := by
  unfold trend_pipeline at h
  simp only [List.mem_map, List.mem_insertionSort, List.mem_dedup,
    List.mem_filterMap, List.mem_filter] at h
  obtain ⟨y, ⟨m, ⟨hm, hmatch⟩, hy⟩, hrow⟩ := h
  refine ⟨m, hm, hmatch, ?_⟩
  rw [← hrow]
  exact hy

/-- Every trend row's average is the average of a non-empty list of ratings
of movies satisfying the filter. -/
theorem trend_row_ratings {movies : List Movie} {f : FilterState} {row : TrendRow}
    (h : row ∈ trend_pipeline movies f) :
    ∃ rs : List ℚ, rs ≠ [] ∧ row.avgRating = avgOf rs ∧
      ∀ r ∈ rs, ∃ m ∈ movies, match_stage f m = true ∧ m.rating = some r := by
  unfold trend_pipeline at h
  simp only [List.mem_map, List.mem_insertionSort, List.mem_dedup,
    List.mem_filterMap, List.mem_filter] at h
  obtain ⟨y, ⟨m, ⟨hm, hmatch⟩, hy⟩, hrow⟩ := h
  refine ⟨((movies.filter (fun m => match_stage f m)).filter
      (fun m => m.year = some y)).filterMap Movie.rating, ?_, ?_, ?_⟩
  · obtain ⟨r, hr, _⟩ := match_stage_rating hmatch
    have hmgrp : m ∈ (movies.filter (fun m => match_stage f m)).filter
        (fun m => m.year = some y) := by
      rw [List.mem_filter]
      exact ⟨List.mem_filter.mpr ⟨hm, hmatch⟩, by simp [hy]⟩
    exact List.ne_nil_of_mem (List.mem_filterMap.mpr ⟨m, hmgrp, hr⟩)
  · rw [← hrow]
  · intro r hr
    obtain ⟨m', hm'grp, hm'r⟩ := List.mem_filterMap.mp hr
    have := List.mem_filter.mp (List.mem_filter.mp hm'grp).1
    exact ⟨m', this.1, this.2, hm'r⟩

/-- Every genre row is the aggregate of a non-empty fan-out group, all of
whose entries carry the row's genre and the rating of a movie satisfying the
filter that has that genre. -/
theorem genre_row_members {movies : List Movie} {f : FilterState} {row : GenreRow}
    (h : row ∈ genre_pipeline movies f) :
    ∃ grp : List (Option String × ℚ), grp ≠ [] ∧
      row.avgRating = avgOf (grp.map Prod.snd) ∧
      ∀ p ∈ grp, ∃ m ∈ movies, match_stage f m = true ∧
        some row.genre ∈ m.genres ∧ m.rating = some p.2 := by
  unfold genre_pipeline at h
  rw [List.mem_insertionSort, List.mem_filterMap] at h
  obtain ⟨k, hk, hmk⟩ := h
  cases k with
  | none => simp [genre_key_row] at hmk
  | some g =>
    simp only [genre_key_row, Option.some.injEq] at hmk
    have hrowg : row.genre = g := by rw [← hmk]; rfl
    refine ⟨(genre_fanout movies f).filter (fun p => p.1 = some g), ?_, ?_, ?_⟩
    · have hkmem : some g ∈ (genre_fanout movies f).map Prod.fst :=
        List.mem_dedup.mp hk
      obtain ⟨p, hp, hp1⟩ := List.mem_map.mp hkmem
      exact List.ne_nil_of_mem (List.mem_filter.mpr ⟨hp, by simp [hp1]⟩)
    · rw [← hmk]; rfl
    · intro p hp
      have hp' := List.mem_filter.mp hp
      have hp1 : p.1 = some g := by simpa using hp'.2
      obtain ⟨m, hmmem, hpm⟩ := List.mem_flatMap.mp hp'.1
      have hmf := List.mem_filter.mp hmmem
      obtain ⟨g', hg', hpg⟩ := List.mem_map.mp hpm
      obtain ⟨r, hr, _⟩ := match_stage_rating hmf.2
      have hg'eq : g' = some g := by rw [← hpg] at hp1; exact hp1
      refine ⟨m, hmf.1, hmf.2, ?_, ?_⟩
      · rw [hrowg]; rw [hg'eq] at hg'; exact hg'
      · have hp2 : p.2 = ratingOf m := by rw [← hpg]
        rw [hp2, ratingOf, hr]
        simp

/-- Every discussion row is the projection of a movie satisfying the filter,
joined with its comment count. -/
theorem disc_row_source {movies : List Movie} {comments : List Comment}
    {f : FilterState} {row : DiscRow}
    (h : row ∈ discussion_pipeline movies comments f) :
    ∃ m ∈ movies, match_stage f m = true ∧
      row = disc_project (m, comment_count_of comments m) := by
  unfold discussion_pipeline at h
  simp only [List.mem_map] at h
  obtain ⟨p, hp, hrow⟩ := h
  have hps : p ∈ List.insertionSort (fun a b => b.2 ≤ a.2)
      ((movies.map (fun m => (m, comment_count_of comments m))).filter
        (fun p => match_stage f p.1)) := List.take_subset _ _ hp
  rw [List.mem_insertionSort, List.mem_filter] at hps
  obtain ⟨hjoin, hmatch⟩ := hps
  obtain ⟨m, hm, hpm⟩ := List.mem_map.mp hjoin
  refine ⟨m, hm, by rw [← hpm] at hmatch; exact hmatch, ?_⟩
  rw [← hrow, ← hpm]

/-! ### C1: rows returned by the aggregators vs the filter predicate -/

/-- C1 counterexample: with genres "A" and "B" on one matching movie and only
"A" selected, the Genre Aggregator also returns the "B" bucket, a row none of
whose genres lies in the selected set — so not every returned row satisfies
the genre clause of the filter predicate. -/
theorem genre_bucket_escapes_selected_set :
    (genre_pipeline [movieAB] onlyA).all
      (fun row => decide (row.genre ∈ onlyA.selected_genres)) = false := by
  decide

/-- C1 (amended): every Trend row has its year in the filter range and its
average rating at least the floor; every Discussion row satisfies the full
filter predicate (year in range, numeric rating at least the floor, and a
genre in the selected set when one is selected); every Genre row has its
average at least the floor and its bucket genre drawn from the genre list of
some movie satisfying the predicate — but the bucket genre itself need not
lie in the selected set. -/
theorem aggregator_rows_satisfy_filter (movies : List Movie)
    (comments : List Comment) (f : FilterState) :
    (∀ row ∈ trend_pipeline movies f,
      f.year_min ≤ row.year ∧ row.year ≤ f.year_max ∧
        f.min_rating ≤ row.avgRating) ∧
    (∀ row ∈ discussion_pipeline movies comments f,
      (∃ y, row.year = some y ∧ f.year_min ≤ y ∧ y ≤ f.year_max) ∧
      (∃ r, row.rating = some r ∧ f.min_rating ≤ r) ∧
      (f.selected_genres ≠ [] →
        ∃ g, some g ∈ row.genres ∧ g ∈ f.selected_genres)) ∧
    (∀ row ∈ genre_pipeline movies f,
      f.min_rating ≤ row.avgRating ∧
      ∃ m ∈ movies, match_stage f m = true ∧ some row.genre ∈ m.genres) := by
  refine ⟨?_, ?_, ?_⟩
  · intro row hrow
    obtain ⟨m, _, hmatch, hy⟩ := trend_row_year hrow
    obtain ⟨y', hy', hy1, hy2⟩ := match_stage_year hmatch
    rw [hy] at hy'
    obtain ⟨ymin, ymax⟩ : f.year_min ≤ row.year ∧ row.year ≤ f.year_max := by
      cases hy'; exact ⟨hy1, hy2⟩
    refine ⟨ymin, ymax, ?_⟩
    obtain ⟨rs, hne, havg, hrs⟩ := trend_row_ratings hrow
    rw [havg]
    refine le_avgOf hne ?_
    intro r hr
    obtain ⟨m', _, hmatch', hr'⟩ := hrs r hr
    obtain ⟨r'', hr'', hmin⟩ := match_stage_rating hmatch'
    rw [hr'] at hr''
    cases hr''
    exact hmin
  · intro row hrow
    obtain ⟨m, _, hmatch, hproj⟩ := disc_row_source hrow
    subst hproj
    obtain ⟨y, hy, hy1, hy2⟩ := match_stage_year hmatch
    obtain ⟨r, hr, hmin⟩ := match_stage_rating hmatch
    refine ⟨⟨y, hy, hy1, hy2⟩, ⟨r, hr, hmin⟩, ?_⟩
    intro hne
    exact match_stage_genre hmatch hne
  · intro row hrow
    obtain ⟨grp, hne, havg, hgrp⟩ := genre_row_members hrow
    constructor
    · rw [havg]
      refine le_avgOf (by simpa using hne) ?_
      intro r hr
      obtain ⟨p, hp, hpr⟩ := List.mem_map.mp hr
      obtain ⟨m, _, hmatch, _, hrat⟩ := hgrp p hp
      obtain ⟨r', hr', hmin⟩ := match_stage_rating hmatch
      rw [hrat] at hr'
      cases hr'
      rw [← hpr]
      exact hmin
    · obtain ⟨p, hp⟩ := List.exists_mem_of_ne_nil grp hne
      obtain ⟨m, hm, hmatch, hg, _⟩ := hgrp p hp
      exact ⟨m, hm, hmatch, hg⟩

/-- C1 witness: instantiating the amended theorem on a one-movie store and the
open filter, discharging the row-membership hypothesis on the concrete trend
output. -/
theorem aggregator_rows_satisfy_filter_witness :
    openFilter.year_min ≤ (TrendRow.mk 2000 5 1).year ∧
    (TrendRow.mk 2000 5 1).year ≤ openFilter.year_max ∧
    openFilter.min_rating ≤ (TrendRow.mk 2000 5 1).avgRating := by
  have hpipe : trend_pipeline [movieAB] openFilter = [TrendRow.mk 2000 5 1] := by
    norm_num [trend_pipeline, match_stage, avgOf, movieAB, openFilter,
      List.insertionSort, List.orderedInsert, List.filterMap_cons]
  exact (aggregator_rows_satisfy_filter [movieAB] [] openFilter).1 _
    (by rw [hpipe]; exact List.mem_singleton.mpr rfl)

/-! ### C10: bounds on the averages returned by trend and genre rows -/

/-- C10 counterexample: nothing in the pipelines bounds ratings above; a
stored rating of 11 yields a trend row whose average exceeds 10. -/
theorem trend_avg_exceeds_ten :
    trend_pipeline [movieEleven] openFilter = [TrendRow.mk 2001 11 1] ∧
    ¬ ((11 : ℚ) ≤ 10) := by
  constructor
  · norm_num [trend_pipeline, match_stage, avgOf, movieEleven, openFilter,
      List.insertionSort, List.orderedInsert, List.filterMap_cons]
  · norm_num

/-- C10 (amended): every Trend and Genre row's average rating is at least the
filter's floor (unconditionally); it is also at most 10 provided every numeric
rating stored in the movie collection is at most 10 — the code itself imposes
no upper bound. -/
theorem avg_rating_bounds (movies : List Movie) (f : FilterState) :
    ((∀ row ∈ trend_pipeline movies f, f.min_rating ≤ row.avgRating) ∧
     (∀ row ∈ genre_pipeline movies f, f.min_rating ≤ row.avgRating)) ∧
    ((∀ m ∈ movies, ∀ r, m.rating = some r → r ≤ 10) →
      (∀ row ∈ trend_pipeline movies f, row.avgRating ≤ 10) ∧
      (∀ row ∈ genre_pipeline movies f, row.avgRating ≤ 10)) := by
  refine ⟨⟨?_, ?_⟩, ?_⟩
  · intro row hrow
    obtain ⟨rs, hne, havg, hrs⟩ := trend_row_ratings hrow
    rw [havg]
    refine le_avgOf hne ?_
    intro r hr
    obtain ⟨m, _, hmatch, hrat⟩ := hrs r hr
    obtain ⟨r', hr', hmin⟩ := match_stage_rating hmatch
    rw [hrat] at hr'
    cases hr'
    exact hmin
  · intro row hrow
    obtain ⟨grp, hne, havg, hgrp⟩ := genre_row_members hrow
    rw [havg]
    refine le_avgOf (by simpa using hne) ?_
    intro r hr
    obtain ⟨p, hp, hpr⟩ := List.mem_map.mp hr
    obtain ⟨m, _, hmatch, _, hrat⟩ := hgrp p hp
    obtain ⟨r', hr', hmin⟩ := match_stage_rating hmatch
    rw [hrat] at hr'
    cases hr'
    rw [← hpr]
    exact hmin
  · intro hub
    constructor
    · intro row hrow
      obtain ⟨rs, hne, havg, hrs⟩ := trend_row_ratings hrow
      rw [havg]
      refine avgOf_le hne ?_
      intro r hr
      obtain ⟨m, hm, _, hrat⟩ := hrs r hr
      exact hub m hm r hrat
    · intro row hrow
      obtain ⟨grp, hne, havg, hgrp⟩ := genre_row_members hrow
      rw [havg]
      refine avgOf_le (by simpa using hne) ?_
      intro r hr
      obtain ⟨p, hp, hpr⟩ := List.mem_map.mp hr
      obtain ⟨m, hm, _, _, hrat⟩ := hgrp p hp
      rw [← hpr]
      exact hub m hm p.2 hrat

/-- C10 witness: the amended theorem applied on a concrete store whose only
rating is 5, with the upper-bound hypothesis discharged. -/
theorem avg_rating_bounds_witness :
    openFilter.min_rating ≤ (TrendRow.mk 2000 5 1).avgRating ∧
    (TrendRow.mk 2000 5 1).avgRating ≤ 10 := by
  have hpipe : trend_pipeline [movieAB] openFilter = [TrendRow.mk 2000 5 1] := by
    norm_num [trend_pipeline, match_stage, avgOf, movieAB, openFilter,
      List.insertionSort, List.orderedInsert, List.filterMap_cons]
  have hmem : TrendRow.mk 2000 5 1 ∈ trend_pipeline [movieAB] openFilter := by
    rw [hpipe]; exact List.mem_singleton.mpr rfl
  have hub : ∀ m ∈ [movieAB], ∀ r, m.rating = some r → r ≤ 10 := by
    intro m hm r hr
    rw [List.mem_singleton] at hm
    subst hm
    rw [show movieAB.rating = some 5 from rfl] at hr
    cases hr
    norm_num
  exact ⟨(avg_rating_bounds [movieAB] openFilter).1.1 _ hmem,
    ((avg_rating_bounds [movieAB] openFilter).2 hub).1 _ hmem⟩

/-! ### C4: zero-comment movies kept by the discussion aggregator -/

/-- C4: a movie satisfying the filter with no comment referencing its id
still appears in the Discussion Aggregator's output, carrying
`comment_count = 0` (here below the top-15 truncation threshold); and every
returned row's `comment_count` equals the number of ALL comments referencing
that row's movie id, because the filter runs after the join and constrains
movie fields only. -/
theorem disc_zero_comment_movie_kept (movies : List Movie)
    (comments : List Comment) (f : FilterState) (m : Movie)
    (hm : m ∈ movies) (hmatch : match_stage f m = true)
    (hzero : comment_count_of comments m = 0)
    (hsmall : (movies.filter (fun x => match_stage f x)).length ≤ 15) :
    disc_project (m, 0) ∈ discussion_pipeline movies comments f ∧
    ∀ row ∈ discussion_pipeline movies comments f,
      row.comment_count =
        (comments.filter (fun c => c.movie_id = row.mid)).length := by
  constructor
  · have hdef : discussion_pipeline movies comments f =
        (List.take 15 (List.insertionSort (fun a b => b.2 ≤ a.2)
          ((movies.map (fun m => (m, comment_count_of comments m))).filter
            (fun p => match_stage f p.1)))).map disc_project := rfl
    rw [hdef]
    have hjoined : (m, comment_count_of comments m) ∈
        movies.map (fun m => (m, comment_count_of comments m)) :=
      List.mem_map.mpr ⟨m, hm, rfl⟩
    have hmatched : (m, comment_count_of comments m) ∈
        (movies.map (fun m => (m, comment_count_of comments m))).filter
          (fun p => match_stage f p.1) :=
      List.mem_filter.mpr ⟨hjoined, hmatch⟩
    have hsortmem : (m, comment_count_of comments m) ∈
        List.insertionSort (fun a b => b.2 ≤ a.2)
          ((movies.map (fun m => (m, comment_count_of comments m))).filter
            (fun p => match_stage f p.1)) :=
      (List.mem_insertionSort _).mpr hmatched
    have hlen : (List.insertionSort (fun a b => b.2 ≤ a.2)
        ((movies.map (fun m => (m, comment_count_of comments m))).filter
          (fun p => match_stage f p.1))).length ≤ 15 := by
      rw [List.length_insertionSort]
      rw [List.filter_map]
      rw [List.length_map]
      exact hsmall
    rw [List.take_of_length_le hlen]
    refine List.mem_map.mpr ⟨(m, comment_count_of comments m), hsortmem, ?_⟩
    rw [hzero]
  · intro row hrow
    obtain ⟨m', _, _, hproj⟩ := disc_row_source hrow
    subst hproj
    rfl

/-- C4 witness: on a two-movie store where only `movieAB` has a comment,
`movieZero` appears with count 0; hypotheses discharged by evaluation. -/
theorem disc_zero_comment_movie_kept_witness :
    disc_project (movieZero, 0) ∈
      discussion_pipeline [movieAB, movieZero] [⟨0, 0⟩] openFilter :=
  (disc_zero_comment_movie_kept [movieAB, movieZero] [⟨0, 0⟩] openFilter
    movieZero (by decide) (by decide) (by decide) (by decide)).1

/-! ### C7: the empty search text is a no-op, distinct from an empty match -/

/-- C7: an empty search text short-circuits before any query (the panel is in
the `noSearch` state); a non-empty text whose query returns no rows lands in
the distinct `noneFound` state. -/
theorem empty_search_is_noop (movies : List Movie) (f : FilterState)
    (q : List Char) (result_limit : Nat) :
    search_panel movies f [] result_limit = SearchOutcome.noSearch ∧
    (q ≠ [] → movies_find movies f q result_limit = [] →
      search_panel movies f q result_limit = SearchOutcome.noneFound) ∧
    SearchOutcome.noSearch ≠ SearchOutcome.noneFound := by
  refine ⟨rfl, ?_, by simp⟩
  intro hq hfind
  unfold search_panel
  rw [if_neg (by simpa using hq), hfind]

/-- C7 witness: the no-op state on the empty text, and the `noneFound` state
for the text "z" which matches no title in the store. -/
theorem empty_search_is_noop_witness :
    search_panel [movieAB] openFilter [] 20 = SearchOutcome.noSearch ∧
    search_panel [movieAB] openFilter ['z'] 20 = SearchOutcome.noneFound :=
  ⟨(empty_search_is_noop [movieAB] openFilter ['z'] 20).1,
   (empty_search_is_noop [movieAB] openFilter ['z'] 20).2.1
     (by decide) (by decide)⟩

/-! ### C8: per-panel error recovery -/

/-- C8: a failing aggregation is recovered locally — the failing panel shows
its own error message (never a chart) while the other two panels render
exactly as they would have anyway; an empty-but-successful result renders the
informational empty notice, which is never an error message. -/
theorem panel_errors_recovered_locally
    (t : Except (List Char) (List TrendRow))
    (g : Except (List Char) (List GenreRow))
    (d : Except (List Char) (List DiscRow)) (e : List Char) :
    dashboard_panels (Except.error e) g d =
      (Render.errorMsg e, genre_panel g, disc_panel d) ∧
    dashboard_panels t (Except.error e) d =
      (trend_panel t, Render.errorMsg e, disc_panel d) ∧
    dashboard_panels t g (Except.error e) =
      (trend_panel t, genre_panel g, Render.errorMsg e) ∧
    trend_panel (Except.ok []) = Render.emptyNotice ∧
    genre_panel (Except.ok []) = Render.emptyNotice ∧
    disc_panel (Except.ok []) = Render.emptyNotice ∧
    Render.emptyNotice ≠ Render.errorMsg e ∧
    Render.errorMsg e ≠ Render.chart :=
  ⟨rfl, rfl, rfl, rfl, rfl, rfl, by simp, by simp⟩

/-! ### C9: the KPI failure path and its side effect on the discussion panel -/

/-- C9: when the KPI computation fails, all four KPI values are zeroed
together; and since the Most Discussed section is gated on that same
`comments_count` variable being positive (not on a fresh query), the section
is suppressed for every store and filter — even when comments exist. -/
theorem kpi_failure_zeroes_and_suppresses_discussion (e : List Char)
    (movies : List Movie) (comments : List Comment) (f : FilterState) :
    kpi_block (Except.error e) = KpiValues.mk 0 0 0 0 ∧
    most_discussed_section (Except.error e) movies comments f = none :=
  ⟨rfl, rfl⟩

/-! ### C6: the KPI average rating -/

/-- Filtering to movies with a numeric rating and then collecting the ratings
collects exactly the numeric ratings. -/
theorem filterMap_rating_filter (movies : List Movie) :
    (movies.filter (fun m => m.rating.isSome)).filterMap Movie.rating =
      movies.filterMap Movie.rating := by
  induction movies with
  | nil => rfl
  | cons m ms ih =>
    cases hr : m.rating with
    | none => simp [List.filter_cons, List.filterMap_cons, hr, ih]
    | some r => simp [List.filter_cons, List.filterMap_cons, hr, ih]

/-- The `$match` stage of the KPI aggregation is empty exactly when no movie
carries a numeric rating. -/
theorem filter_isSome_nil_iff (movies : List Movie) :
    movies.filter (fun m => m.rating.isSome) = [] ↔
      movies.filterMap Movie.rating = [] := by
  induction movies with
  | nil => simp
  | cons m ms ih =>
    cases hr : m.rating with
    | none => simp [List.filter_cons, List.filterMap_cons, hr, ih]
    | some r => simp [List.filter_cons, List.filterMap_cons, hr]

/-- C6: the KPI `avg_rating` is 0 whenever no movie document has a numeric
rating (in particular on an empty store), and otherwise is the average of
exactly the numeric ratings. -/
theorem kpi_avg_rating_correct (movies : List Movie) :
    (movies.filterMap Movie.rating = [] → avg_rating movies = 0) ∧
    (movies.filterMap Movie.rating ≠ [] →
      avg_rating movies = (movies.filterMap Movie.rating).sum /
        ((movies.filterMap Movie.rating).length : ℚ)) := by
  constructor
  · intro h
    have hfil : movies.filter (fun m => m.rating.isSome) = [] :=
      (filter_isSome_nil_iff movies).mpr h
    unfold avg_rating rating_data
    rw [hfil]
  · intro h
    have hfil : movies.filter (fun m => m.rating.isSome) ≠ [] :=
      fun hc => h ((filter_isSome_nil_iff movies).mp hc)
    have hdata : rating_data movies = [avgOf (movies.filterMap Movie.rating)] := by
      unfold rating_data
      rw [← filterMap_rating_filter movies]
      obtain ⟨a, as, hm⟩ := List.exists_cons_of_ne_nil hfil
      rw [hm]
    unfold avg_rating
    rw [hdata]
    rfl

/-- C6 witness: a store with numeric ratings 4 and 6 averages to 5, via the
non-empty arm of the theorem. -/
theorem kpi_avg_rating_correct_witness :
    [movieFour, movieSix].filterMap Movie.rating ≠ [] ∧
    avg_rating [movieFour, movieSix] = 5 := by
  refine ⟨by decide, ?_⟩
  rw [(kpi_avg_rating_correct [movieFour, movieSix]).2 (by decide)]
  norm_num [movieFour, movieSix, List.filterMap_cons]

/-! ### C2: the search query -/

/-- On a text containing no dot, the compiled pattern matches a prefix of the
text exactly when the lowered text starts with the lowered search text. -/
theorem match_here_literal {q : List Char} (hq : ∀ c ∈ q, c ≠ '.') :
    ∀ t : List Char, match_here (compile_regex q) t = starts_at (lower q) (lower t) := by
  induction q with
  | nil => intro t; rfl
  | cons c cs ih =>
    intro t
    have hc : c ≠ '.' := hq c (List.mem_cons_self c cs)
    cases t with
    | nil =>
      simp [compile_regex, lower, match_here, starts_at, if_neg hc]
    | cons d ds =>
      have ihds := ih (fun x hx => hq x (List.mem_cons_of_mem c hx)) ds
      simp [compile_regex, lower, match_here, starts_at, if_neg hc, tok_match,
        compile_regex] at ihds ⊢
      rw [ihds]

/-- On a text containing no dot, the unanchored regex match coincides with
case-insensitive substring search. -/
theorem regex_find_literal {q : List Char} (hq : ∀ c ∈ q, c ≠ '.') :
    ∀ t : List Char, regex_find (compile_regex q) t = contains_sub (lower q) (lower t) := by
  intro t
  induction t with
  | nil =>
    show match_here (compile_regex q) [] = starts_at (lower q) []
    exact match_here_literal hq []
  | cons c cs ih =>
    show (match_here (compile_regex q) (c :: cs) || regex_find (compile_regex q) cs) =
      (starts_at (lower q) (lower (c :: cs)) || contains_sub (lower q) (lower cs))
    rw [match_here_literal hq (c :: cs), ih]

/-- C2 counterexample: the code passes the raw search text to `$regex`, so
the text "a." matches the title "ab" (the dot is a wildcard) and the record
is returned even though "a." is not a substring of "ab"; the claimed
substring semantics would return nothing. -/
theorem regex_text_is_not_substring_search :
    movies_find [movieAB] openFilter ['a', '.'] 20 = [search_project movieAB] ∧
    contains_sub (lower ['a', '.']) (lower movieAB.title) = false ∧
    search_spec [movieAB] openFilter ['a', '.'] 20 = [] :=
  ⟨by decide, by decide, by decide⟩

/-- C2 (amended): for every non-empty search text all of whose characters are
regex-literal (no metacharacter), every result limit and every Filter State,
the Search Query returns exactly the movie records whose title contains the
text case-insensitively AND that satisfy the filter predicate, truncated to
`result_limit` rows and projected to (title, year, genres, rating, plot). -/
theorem search_is_filtered_substring_query (movies : List Movie)
    (f : FilterState) (q : List Char) (result_limit : Nat)
    (_hne : q ≠ []) (hq : ∀ c ∈ q, c ∉ regex_meta) :
    movies_find movies f q result_limit = search_spec movies f q result_limit := by
  unfold movies_find search_spec
  have hdot : ∀ c ∈ q, c ≠ '.' := by
    intro c hc hceq
    exact hq c hc (by rw [hceq]; exact List.mem_cons_self _ _)
  have hfil : movies.filter (fun m =>
      regex_find (compile_regex q) m.title && match_stage f m) =
    movies.filter (fun m =>
      contains_sub (lower q) (lower m.title) && match_stage f m) := by
    apply List.filter_congr
    intro m _
    rw [regex_find_literal hdot m.title]
  rw [hfil]

/-- C2 witness: the metacharacter-free text "ab" behaves as substring search
on the concrete store. -/
theorem search_is_filtered_substring_query_witness :
    movies_find [movieAB] openFilter ['a', 'b'] 20 =
      search_spec [movieAB] openFilter ['a', 'b'] 20 :=
  search_is_filtered_substring_query [movieAB] openFilter ['a', 'b'] 20
    (by decide) (by decide)

/-! ### C5: genre fan-out counting -/

/-- Dropping the null bucket and reading off the per-bucket counts equals
mapping the group size over the non-null keys. -/
theorem genre_rows_counts (fan : List (Option String × ℚ)) :
    ∀ ks : List (Option String),
      (ks.filterMap (genre_key_row fan)).map GenreRow.movieCount
      = (ks.filter Option.isSome).map
          (fun k => (fan.filter (fun p => p.1 = k)).length) := by
  intro ks
  induction ks with
  | nil => rfl
  | cons k ks ih =>
    cases k with
    | none => simpa [List.filterMap_cons, genre_key_row] using ih
    | some g =>
      simp only [List.filterMap_cons, genre_key_row, List.map_cons, ih,
        List.filter_cons, Option.isSome]
      rfl

/-- The size of one key's group is the key's multiplicity among the fan-out
keys. -/
theorem fan_filter_length_eq_count (fan : List (Option String × ℚ))
    (k : Option String) :
    (fan.filter (fun p => p.1 = k)).length =
      @List.count (Option String) instBEqOfDecidableEq k (fan.map Prod.fst) := by
  rw [@List.count_eq_countP (Option String) instBEqOfDecidableEq k
    (fan.map Prod.fst), List.countP_map, List.countP_eq_length_filter]
  rfl

/-- The fan-out keys are exactly the concatenated genre arrays of the
filtered movies. -/
theorem fan_keys (movies : List Movie) (f : FilterState) :
    (genre_fanout movies f).map Prod.fst =
      (movies.filter (fun m => match_stage f m)).flatMap Movie.genres := by
  unfold genre_fanout
  rw [List.map_flatMap]
  congr 1
  funext m
  rw [List.map_map]
  exact List.map_id' m.genres

/-- The total of the returned `movieCount` values is the number of non-null
fan-out keys. -/
theorem genre_counts_sum (movies : List Movie) (f : FilterState) :
    ((genre_pipeline movies f).map GenreRow.movieCount).sum =
      ((genre_fanout movies f).map Prod.fst).countP Option.isSome := by
  have hdef : genre_pipeline movies f =
      List.insertionSort (fun a b => b.movieCount ≤ a.movieCount)
        (((genre_fanout movies f).map Prod.fst).dedup.filterMap
          (genre_key_row (genre_fanout movies f))) := rfl
  rw [hdef]
  have hperm : List.Perm
      ((List.insertionSort (fun a b => b.movieCount ≤ a.movieCount)
        (((genre_fanout movies f).map Prod.fst).dedup.filterMap
          (genre_key_row (genre_fanout movies f)))).map GenreRow.movieCount)
      ((((genre_fanout movies f).map Prod.fst).dedup.filterMap
        (genre_key_row (genre_fanout movies f))).map GenreRow.movieCount) :=
    (List.perm_insertionSort _ _).map _
  rw [hperm.sum_eq, genre_rows_counts (genre_fanout movies f)]
  have hmapeq : ((((genre_fanout movies f).map Prod.fst).dedup.filter
        Option.isSome).map
      (fun k => ((genre_fanout movies f).filter (fun p => p.1 = k)).length))
    = ((((genre_fanout movies f).map Prod.fst).dedup.filter
        Option.isSome).map
      (fun k => @List.count (Option String) instBEqOfDecidableEq k
        ((genre_fanout movies f).map Prod.fst))) :=
    List.map_congr_left (fun k _ =>
      fan_filter_length_eq_count (genre_fanout movies f) k)
  rw [hmapeq]
  exact List.sum_map_count_dedup_filter_eq_countP Option.isSome
    ((genre_fanout movies f).map Prod.fst)

/-- Each bucket's `movieCount` adds up the multiplicity of that genre in
each filtered movie's genre array. -/
theorem genre_bucket_count (movies : List Movie) (f : FilterState) (g : String) :
    ((genre_fanout movies f).filter (fun p => p.1 = some g)).length =
      ((movies.filter (fun m => match_stage f m)).map
        (fun m => m.genres.count (some g))).sum := by
  unfold genre_fanout
  induction movies with
  | nil => rfl
  | cons m ms ih =>
    rw [List.filter_cons]
    by_cases hm : match_stage f m = true
    · rw [if_pos (by simpa using hm), List.flatMap_cons, List.filter_append,
        List.length_append, ih, List.map_cons, List.sum_cons]
      congr 1
      rw [List.filter_map, List.length_map, List.count_eq_countP,
        List.countP_eq_length_filter]
      congr 1
      apply List.filter_congr
      intro x _
      rw [Bool.eq_iff_iff]
      simp [Function.comp]
    · rw [if_neg (by simpa using hm)]
      exact ih

/-- Every returned genre row is the group row of some non-null key. -/
theorem genre_row_shape {movies : List Movie} {f : FilterState} {row : GenreRow}
    (h : row ∈ genre_pipeline movies f) :
    ∃ g : String, row = genre_row (genre_fanout movies f) g := by
  unfold genre_pipeline at h
  rw [List.mem_insertionSort, List.mem_filterMap] at h
  obtain ⟨k, hk, hmk⟩ := h
  cases k with
  | none => simp [genre_key_row] at hmk
  | some g =>
    refine ⟨g, ?_⟩
    simpa [genre_key_row] using hmk.symm

/-- A list's elements selected by `p` are no more numerous than the total of
any per-element weight that is positive wherever `p` holds. -/
theorem length_filter_le_sum_map {α : Type} (F : α → Nat) (p : α → Bool)
    (h : ∀ a, p a = true → 0 < F a) :
    ∀ l : List α, (l.filter p).length ≤ (l.map F).sum := by
  intro l
  induction l with
  | nil => simp
  | cons a l ih =>
    rw [List.filter_cons, List.map_cons, List.sum_cons]
    by_cases hp : p a = true
    · rw [if_pos hp]
      rw [List.length_cons]
      have hpos := h a hp
      omega
    · rw [if_neg hp]
      exact le_trans ih (Nat.le_add_left _ _)

/-- C5 counterexample: a movie with an empty genre array satisfies the open
filter but fans out to no genre row at all, so the total of `movie_count`
over the returned rows (0) is strictly below the number of distinct filtered
movies (1). -/
theorem genre_sum_undercounts_movies :
    ((genre_pipeline [movieNoGenre] openFilter).map GenreRow.movieCount).sum <
      ([movieNoGenre].filter (fun m => match_stage openFilter m)).length := by
  decide

/-- C5 (amended): the Genre Aggregator fans each filtered movie out over its
genre list — each non-null genre of a filtered movie owns a returned bucket,
and a bucket's `movie_count` sums the genre's multiplicity over all filtered
movies' genre arrays (so a movie with genres [A,B] contributes one unit to
both buckets); consequently the sum of `movie_count` over the returned rows
is at least the number of filtered movies that have at least one non-null
genre.  Filtered movies whose genre array is empty (or all null) are dropped
by the `$unwind`, so they are not counted; the null/absent bucket is excluded
from the output by construction. -/
theorem genre_fanout_counting (movies : List Movie) (f : FilterState) :
    (∀ m ∈ movies, match_stage f m = true → ∀ g : String, some g ∈ m.genres →
      ∃ row ∈ genre_pipeline movies f, row.genre = g) ∧
    (∀ row ∈ genre_pipeline movies f,
      row.movieCount = ((movies.filter (fun m => match_stage f m)).map
        (fun m => m.genres.count (some row.genre))).sum) ∧
    ((movies.filter (fun m => match_stage f m)).filter
        (fun m => m.genres.any Option.isSome)).length ≤
      ((genre_pipeline movies f).map GenreRow.movieCount).sum := by
  refine ⟨?_, ?_, ?_⟩
  · intro m hm hmatch g hg
    have hfan : (some g, ratingOf m) ∈ genre_fanout movies f := by
      unfold genre_fanout
      exact List.mem_flatMap.mpr ⟨m, List.mem_filter.mpr ⟨hm, hmatch⟩,
        List.mem_map.mpr ⟨some g, hg, rfl⟩⟩
    have hkey : some g ∈ (genre_fanout movies f).map Prod.fst :=
      List.mem_map.mpr ⟨(some g, ratingOf m), hfan, rfl⟩
    have hrows : genre_row (genre_fanout movies f) g ∈
        ((genre_fanout movies f).map Prod.fst).dedup.filterMap
          (genre_key_row (genre_fanout movies f)) :=
      List.mem_filterMap.mpr ⟨some g, List.mem_dedup.mpr hkey, rfl⟩
    exact ⟨genre_row (genre_fanout movies f) g,
      (List.mem_insertionSort _).mpr hrows, rfl⟩
  · intro row hrow
    obtain ⟨g, rfl⟩ := genre_row_shape hrow
    exact genre_bucket_count movies f g
  · have hstep : ((movies.filter (fun m => match_stage f m)).filter
        (fun m => m.genres.any Option.isSome)).length ≤
        ((movies.filter (fun m => match_stage f m)).map
          (fun m => m.genres.countP Option.isSome)).sum := by
      apply length_filter_le_sum_map
      intro m hm
      rw [List.countP_pos_iff]
      exact List.any_eq_true.mp hm
    rw [genre_counts_sum, fan_keys, List.countP_flatMap]
    refine le_trans hstep (le_of_eq ?_)
    apply congrArg List.sum
    apply List.map_congr_left
    intro m _
    simp [Function.comp]

/-- C5 witness: on a one-movie store with genres "A" and "B" and only "A"
selected, the bucket of "A" counts exactly the fanned-out contribution of
that movie, via the second conjunct of the theorem at the concrete row. -/
theorem genre_fanout_counting_witness :
    (GenreRow.mk "A" 5 1).movieCount =
      (([movieAB].filter (fun m => match_stage onlyA m)).map
        (fun m => m.genres.count (some (GenreRow.mk "A" 5 1).genre))).sum := by
  have hpipe : genre_pipeline [movieAB] onlyA =
      [GenreRow.mk "A" 5 1, GenreRow.mk "B" 5 1] := by
    norm_num [genre_pipeline, genre_fanout, genre_row, match_stage, avgOf,
      ratingOf, movieAB, onlyA, List.insertionSort, List.orderedInsert,
      List.filter, List.filterMap, List.dedup, List.flatMap,
      show decide ("A" = "B") = false from rfl,
      show decide ("B" = "A") = false from rfl]
  exact (genre_fanout_counting [movieAB] onlyA).2.1 (GenreRow.mk "A" 5 1)
    (by rw [hpipe]; exact List.mem_cons_self _ _)
